import Mathlib

/-
Verification of the user/profile CRUD service (src/main.py) against its
natural-language specification.

The embedding is a shallow one: the relational store is a pair of lists of
rows plus autoincrement counters, each route handler is a pure function from
the store and the request payload to a response and a successor store, and the
commit semantics of the underlying store (username uniqueness enforced on
UPDATE, whole-transaction rollback on violation) are made explicit in the
handlers that perform a commit that can fail.

Modelling conventions:
  - JSON string fields of request payloads are modelled as present-with-a-
    string or absent (Option String); JSON null values and non-string JSON
    values are outside the modelled payload space.
  - Filenames are modelled over ASCII, matching the behaviour of the
    werkzeug filename sanitizer on POSIX for ASCII input.
  - An IntegrityError raised by a commit and not caught by any handler is
    modelled as the distinguished response constructor integrityError.
-/

namespace UserService

/-- User row, from the User model (src/main.py lines 16 to 23): integer
primary key, unique non-null username, non-null password, boolean admin flag
defaulting to false. -/
structure User where
  id : Nat
  username : String
  password : String
  is_admin : Bool
deriving Repr, DecidableEq

/-- Profile row, from the Profile model (src/main.py lines 26 to 30): integer
primary key, non-null full_name, nullable bio, non-null user_id foreign key
into the User table. -/
structure Profile where
  id : Nat
  full_name : String
  bio : Option String
  user_id : Nat
deriving Repr, DecidableEq

/-- The relational store: the two tables plus the autoincrement counters for
the generated primary keys. -/
structure DB where
  users : List User
  profiles : List Profile
  nextUserId : Nat
  nextProfileId : Nat
deriving Repr, DecidableEq

/-- The store right after db.create_all: both tables empty, SQLite
autoincrement ids starting at 1. -/
def emptyDB : DB := { users := [], profiles := [], nextUserId := 1, nextProfileId := 1 }

/-- Point lookup User.query.get(user_id). -/
def userById (db : DB) (uid : Nat) : Option User :=
  db.users.find? (fun u => u.id == uid)

/-- Filtered lookup User.query.filter_by(username=...).first(). -/
def userByName (db : DB) (name : String) : Option User :=
  db.users.find? (fun u => u.username == name)

/-- The one-to-one relationship user.profile (uselist=False): the first
Profile row whose user_id matches. -/
def profileByUserId (db : DB) (uid : Nat) : Option Profile :=
  db.profiles.find? (fun p => p.user_id == uid)

/-- Result of the login route (src/main.py lines 64 to 76): either a session
bound to the matched user id followed by a redirect to the chat view, or the
invalid-credentials rendering of the login view. Both failure paths produce
the same value by construction of the source: flash of a fixed message and a
re-render. -/
inductive LoginResult where
  | redirectChat (uid : Nat)
  | invalidCredentials
deriving Repr, DecidableEq

/-- The credential lookup User.query.filter_by(username=..., password=...)
.first(). A missing form field arrives as None and matches no stored row,
since both columns are non-null. -/
def loginLookup (db : DB) (un pw : Option String) : Option User :=
  db.users.find? (fun u => un == some u.username && pw == some u.password)

/-- The POST branch of the login route. -/
def login (db : DB) (un pw : Option String) : LoginResult :=
  match loginLookup db un pw with
  | some u => .redirectChat u.id
  | none => .invalidCredentials

/-- Lowercasing of a string, character by character (Python str.lower over
ASCII). -/
def lowerStr (s : String) : String :=
  String.mk (s.toList.map Char.toLower)

/-- The text after the last dot of a filename, as computed by
rsplit with separator dot and maxsplit one, index one. -/
def rsplitExt (filename : String) : String :=
  String.mk ((filename.toList.reverse.takeWhile (fun c => c != '.')).reverse)

/-- allowed_file helper (src/main.py lines 98 to 99): a dot occurs in the
filename and the lowercased text after the last dot is in the allow-list. -/
def allowed_file (filename : String) (allowed_extensions : List String) : Bool :=
  filename.toList.contains '.' &&
    allowed_extensions.contains (lowerStr (rsplitExt filename))

/-- Character class kept by the werkzeug filename sanitizer. -/
def isSafeFilenameChar (c : Char) : Bool :=
  c.isAlphanum || c == '_' || c == '.' || c == '-'

/-- Characters stripped from both ends by the werkzeug filename sanitizer. -/
def isDotOrUnderscore (c : Char) : Bool :=
  c == '.' || c == '_'

/-- Splitting into maximal whitespace-free words, Python str.split with no
arguments: separator runs are dropped and no empty words are produced. -/
def splitWords (cur : List Char) : List Char → List (List Char)
  | [] => if cur.isEmpty then [] else [cur.reverse]
  | c :: cs =>
      if c.isWhitespace then
        if cur.isEmpty then splitWords [] cs else cur.reverse :: splitWords [] cs
      else splitWords (c :: cur) cs

/-- Model of werkzeug.utils.secure_filename on POSIX for ASCII input: the
path separator becomes a space, whitespace-separated words are joined with
underscores, characters outside the safe class are dropped, and leading and
trailing dots and underscores are stripped. -/
def secure_filename (filename : String) : String :=
  let noSep := filename.toList.map (fun c => if c == '/' then ' ' else c)
  let joined := (List.intercalate ['_'] (splitWords [] noSep))
  let kept := joined.filter isSafeFilenameChar
  String.mk (((kept.dropWhile isDotOrUnderscore).reverse.dropWhile
    isDotOrUnderscore).reverse)

/-- Response of the upload route: 201 with a message, or 400 with an error
field. -/
inductive UploadResult where
  | created (message : String)
  | badRequest (error : String)
deriving Repr, DecidableEq

/-- The upload route (src/main.py lines 84 to 95). The argument is the file
part of the request: absent, or present carrying a filename. A present file
object is truthy exactly when its filename is nonempty. -/
def file_upload (filePart : Option String) (allowed_extensions : List String) :
    UploadResult :=
  match filePart with
  | none => .badRequest "No file part in the request"
  | some fn =>
      if fn != "" && allowed_file fn allowed_extensions then
        .created ("File " ++ secure_filename fn ++ " uploaded successfully")
      else
        .badRequest "Invalid file type"

/-- The default allow-list from the app configuration (src/main.py line 39). -/
def defaultAllowedExtensions : List String :=
  ["txt", "pdf", "png", "jpg", "jpeg", "gif"]

/-- Body of a POST to the users collection: username and password strings
plus an optional full name and bio (src/main.py lines 104 to 108). -/
structure CreatePayload where
  username : String
  password : String
  full_name : Option String
  bio : Option String
deriving Repr, DecidableEq

/-- Body of a PUT to a user resource: any subset of the four fields
(src/main.py lines 153 to 164). A field is some value when its key is
present in the JSON body and none when the key is absent. -/
structure UpdatePayload where
  username : Option String
  password : Option String
  full_name : Option String
  bio : Option String
deriving Repr, DecidableEq

/-- Response of a mutating user route: 201 with a message, 200 with a
message, a structured error response carrying a status code and an error
field, or an IntegrityError raised by the commit and escaping the handler
uncaught. -/
inductive RouteResult where
  | created (message : String)
  | ok (message : String)
  | errorResp (code : Nat) (error : String)
  | integrityError
deriving Repr, DecidableEq

/-- True exactly for the structured error responses, the ones serialized as
a JSON object with an error field and a 4xx status. -/
def isErrorResponse : RouteResult → Bool
  | .errorResp _ _ => true
  | _ => false

/-- The create-user route (src/main.py lines 101 to 125): reject when the
username is already stored; otherwise insert the user and commit, then, only
when the supplied full name is truthy (present and nonempty), insert the
profile and commit again. The insert commits cannot violate uniqueness
because the pre-check just established that no stored row has the new
username. -/
def createUser (db : DB) (p : CreatePayload) : RouteResult × DB :=
  if (userByName db p.username).isSome then
    (.errorResp 400 "Username already exists", db)
  else
    let user : User :=
      { id := db.nextUserId, username := p.username, password := p.password,
        is_admin := false }
    let db1 : DB :=
      { db with users := db.users ++ [user], nextUserId := db.nextUserId + 1 }
    let db2 : DB :=
      match p.full_name with
      | some fn =>
          if fn != "" then
            { db1 with
                profiles := db1.profiles ++
                  [{ id := db1.nextProfileId, full_name := fn, bio := p.bio,
                     user_id := user.id }],
                nextProfileId := db1.nextProfileId + 1 }
          else db1
      | none => db1
    (.created ("User " ++ p.username ++ " created successfully"), db2)

/-- The nested profile object of the get-user response. -/
structure ProfileView where
  full_name : String
  bio : Option String
deriving Repr, DecidableEq

/-- The get-user response body (src/main.py lines 135 to 143): exactly the
id, username, is_admin and profile fields. The stored password has no field
here. -/
structure UserView where
  id : Nat
  username : String
  is_admin : Bool
  profile : Option ProfileView
deriving Repr, DecidableEq

/-- The get-user route (src/main.py lines 127 to 144), for a caller holding
a session: none is the 404 user-not-found response, some v the 200 body. -/
def getUser (db : DB) (uid : Nat) : Option UserView :=
  (userById db uid).map fun user =>
    { id := user.id, username := user.username, is_admin := user.is_admin,
      profile := (profileByUserId db user.id).map fun pr =>
        { full_name := pr.full_name, bio := pr.bio } }

/-- The update-user route (src/main.py lines 146 to 170): 404 when the id is
unknown; otherwise each of username and password is replaced when its key is
present and kept otherwise, the profile is likewise partially updated when
one exists, and a profile is inserted when none exists and the full_name key
is present. The single trailing commit issues an UPDATE of the user row only
when a value changed; it raises an IntegrityError, rolling the whole
transaction back, exactly when the changed username is already held by a
different stored row. -/
def updateUser (db : DB) (uid : Nat) (p : UpdatePayload) : RouteResult × DB :=
  match userById db uid with
  | none => (.errorResp 404 "User not found", db)
  | some user =>
      let newUsername := p.username.getD user.username
      let newPassword := p.password.getD user.password
      let user1 : User := { user with username := newUsername, password := newPassword }
      let updated : DB :=
        match profileByUserId db user.id with
        | some prof =>
            let prof1 : Profile :=
              { prof with
                  full_name := p.full_name.getD prof.full_name,
                  bio := match p.bio with | some b => some b | none => prof.bio }
            { db with
                users := db.users.map (fun v => if v.id == user.id then user1 else v),
                profiles := db.profiles.map (fun q => if q.id == prof.id then prof1 else q) }
        | none =>
            match p.full_name with
            | some fn =>
                { db with
                    users := db.users.map (fun v => if v.id == user.id then user1 else v),
                    profiles := db.profiles ++
                      [{ id := db.nextProfileId, full_name := fn, bio := p.bio,
                         user_id := user.id }],
                    nextProfileId := db.nextProfileId + 1 }
            | none =>
                { db with
                    users := db.users.map (fun v => if v.id == user.id then user1 else v) }
      if newUsername != user.username &&
          db.users.any (fun v => v.id != user.id && v.username == newUsername) then
        (.integrityError, db)
      else
        (.ok ("User " ++ newUsername ++ " updated successfully"), updated)

/-- The delete-user route (src/main.py lines 172 to 185): 404 when the id is
unknown; otherwise the profile row found through the relationship is deleted
first when present, then the user row, then the commit. -/
def deleteUser (db : DB) (uid : Nat) : RouteResult × DB :=
  match userById db uid with
  | none => (.errorResp 404 "User not found", db)
  | some user =>
      let profiles1 :=
        match profileByUserId db user.id with
        | some prof => db.profiles.filter (fun q => q.id != prof.id)
        | none => db.profiles
      let users1 := db.users.filter (fun v => v.id != user.id)
      (.ok ("User " ++ user.username ++ " deleted successfully"),
        { db with users := users1, profiles := profiles1 })

/-- The get-profile route (src/main.py lines 187 to 198): none is the 404
profile-not-found response, produced both when the user id is unknown and
when the user has no profile; some gives the full name and bio. -/
def getProfile (db : DB) (uid : Nat) : Option (String × Option String) :=
  match userById db uid with
  | none => none
  | some user =>
      (profileByUserId db user.id).map fun pr => (pr.full_name, pr.bio)

/-- One mutating route invocation, for stating state invariants over all of
them. -/
inductive Op where
  | create (p : CreatePayload)
  | update (uid : Nat) (p : UpdatePayload)
  | delete (uid : Nat)
deriving Repr, DecidableEq

/-- The successor store of one route invocation. -/
def applyOp (db : DB) : Op → DB
  | .create p => (createUser db p).2
  | .update uid p => (updateUser db uid p).2
  | .delete uid => (deleteUser db uid).2

/-- The store reached from the freshly created schema by a sequence of route
invocations. -/
def runOps (ops : List Op) : DB :=
  ops.foldl applyOp emptyDB

/-- Referential integrity: every profile row references the id of a stored
user row. -/
def refIntact (db : DB) : Prop :=
  ∀ p ∈ db.profiles, ∃ u ∈ db.users, u.id = p.user_id

/-- The state invariant maintained by the routes: referential integrity, at
most one profile per user, distinct profile primary keys, and all stored
generated ids below their autoincrement counters. -/
def Inv (db : DB) : Prop :=
  refIntact db ∧
  (db.profiles.map (fun p => p.user_id)).Nodup ∧
  (db.profiles.map (fun p => p.id)).Nodup ∧
  (∀ u ∈ db.users, u.id < db.nextUserId) ∧
  (∀ q ∈ db.profiles, q.id < db.nextProfileId) ∧
  (db.users.map (fun u => u.id)).Nodup

instance (db : DB) : Decidable (refIntact db) := by
  unfold refIntact; infer_instance

instance (db : DB) : Decidable (Inv db) := by
  unfold Inv; infer_instance

/-- A small concrete store used by witnesses: one user, no profile. -/
def demoDB : DB :=
  { users := [{ id := 1, username := "alice", password := "pw1", is_admin := false }],
    profiles := [], nextUserId := 2, nextProfileId := 2 }

/-- A concrete store with two users and no profiles, used to exhibit the
behaviour of update-time uniqueness conflicts. -/
def twoUserDB : DB :=
  { users := [{ id := 1, username := "alice", password := "pw1", is_admin := false },
              { id := 2, username := "bob", password := "pw2", is_admin := false }],
    profiles := [], nextUserId := 3, nextProfileId := 1 }

/-- A PUT body that renames its target to the username of the other stored
user. -/
def conflictPayload : UpdatePayload :=
  { username := some "alice", password := none, full_name := none, bio := none }

/-- A PUT body that both renames its target to a taken username and supplies
a full name. -/
def renameWithNamePayload : UpdatePayload :=
  { username := some "bob", password := none, full_name := some "Xavier", bio := none }

/-- A concrete store with one user owning one profile. -/
def profDB : DB :=
  { users := [{ id := 1, username := "alice", password := "pw1", is_admin := false }],
    profiles := [{ id := 1, full_name := "Alice A", bio := none, user_id := 1 }],
    nextUserId := 2, nextProfileId := 2 }

/-- A POST body with a fresh username and a nonempty full name. -/
def createBobPayload : CreatePayload :=
  { username := "carol", password := "pw", full_name := some "Bob R", bio := none }

/-- A PUT body whose only key is a full name holding the empty string. -/
def emptyNamePayload : UpdatePayload :=
  { username := none, password := none, full_name := some "", bio := none }

/-- The state transformer generating the pairs of stores that differ only in
the stored password of the user with the given id. -/
def setPassword (db : DB) (uid : Nat) (pw : String) : DB :=
  { db with
      users := db.users.map (fun u =>
        if u.id == uid then { u with password := pw } else u) }

/-- A nonempty filename is forced by the presence of a dot. -/
theorem contains_dot_ne_empty (fn : String) (h : fn.toList.contains '.' = true) :
    (fn != "") = true := by
  rcases eq_or_ne fn "" with rfl | h2
  · exact absurd h (by decide)
  · simpa using h2

/-- C6: login succeeds, establishing a session bound to the id of a stored
user, exactly when some stored user has verbatim the submitted username and
the submitted password; and the bound identifier is the id of such a user. -/
theorem login_exact_match_iff :
    ∀ (db : DB) (un pw : Option String),
      ((∃ uid, login db un pw = .redirectChat uid) ↔
        ∃ u ∈ db.users, un = some u.username ∧ pw = some u.password) ∧
      (∀ uid, login db un pw = .redirectChat uid →
        ∃ u ∈ db.users, u.id = uid ∧ un = some u.username ∧ pw = some u.password) := by
  intro db un pw
  unfold login loginLookup
  cases h : db.users.find? (fun u => un == some u.username && pw == some u.password) with
  | none =>
      rw [List.find?_eq_none] at h
      constructor
      · constructor
        · rintro ⟨uid, habs⟩; cases habs
        · rintro ⟨u, hu, h1, h2⟩
          exact absurd (by simp [h1, h2]) (h u hu)
      · intro uid habs; cases habs
  | some u =>
      have hpred := List.find?_some h
      have hmem := List.mem_of_find?_eq_some h
      simp only [Bool.and_eq_true, beq_iff_eq] at hpred
      constructor
      · constructor
        · intro _; exact ⟨u, hmem, hpred.1, hpred.2⟩
        · intro _; exact ⟨u.id, rfl⟩
      · intro uid heq
        cases heq
        exact ⟨u, hmem, rfl, hpred.1, hpred.2⟩

/-- Witness for C6 at a concrete store: the successful login for alice is
bound to the stored id 1. -/
theorem login_exact_match_iff_witness :
    ∃ u ∈ demoDB.users, u.id = 1 ∧
      some "alice" = some u.username ∧ some "pw1" = some u.password :=
  (login_exact_match_iff demoDB (some "alice") (some "pw1")).2 1 (by decide)

/-- C7: two failing login attempts, one whose username is stored but whose
password is wrong and one whose username is not stored at all, produce the
very same observable response, namely the invalid-credentials rendering. -/
theorem login_failure_no_leak (db : DB) (un1 pw1 un2 pw2 : Option String)
    (hfail1 : ∀ u ∈ db.users, ¬(un1 = some u.username ∧ pw1 = some u.password))
    (_hexists1 : ∃ u ∈ db.users, un1 = some u.username)
    (hnouser2 : ∀ u ∈ db.users, un2 ≠ some u.username) :
    login db un1 pw1 = login db un2 pw2 ∧
    login db un1 pw1 = .invalidCredentials := by
  have h1 : loginLookup db un1 pw1 = none := by
    rw [loginLookup, List.find?_eq_none]
    intro u hu
    simp only [Bool.and_eq_true, beq_iff_eq]
    exact hfail1 u hu
  have h2 : loginLookup db un2 pw2 = none := by
    rw [loginLookup, List.find?_eq_none]
    intro u hu
    simp only [Bool.and_eq_true, beq_iff_eq]
    rintro ⟨hun, _⟩
    exact hnouser2 u hu hun
  constructor
  · rw [login, login, h1, h2]
  · rw [login, h1]

/-- Witness for C7 at a concrete store: wrong password for the stored alice
versus an unknown username give identical responses. -/
theorem login_failure_no_leak_witness :
    login demoDB (some "alice") (some "bad") = login demoDB (some "mallory") (some "pw1") ∧
    login demoDB (some "alice") (some "bad") = .invalidCredentials :=
  login_failure_no_leak demoDB (some "alice") (some "bad") (some "mallory") (some "pw1")
    (by decide) (by decide) (by decide)

/-- C8: for a request carrying a file part, the upload fails with the
invalid-file-type error exactly when the filename has no dot or the
lowercased extension after the last dot is outside the allow-list, and
succeeds with a 201 reporting the sanitized stored filename exactly
otherwise; in particular report.exe is rejected and report.pdf is stored
under the same name against the default allow-list. -/
theorem file_upload_type_check :
    (∀ (fn : String) (exts : List String),
      (file_upload (some fn) exts = .badRequest "Invalid file type" ↔
        (fn.toList.contains '.' = false ∨
          exts.contains (lowerStr (rsplitExt fn)) = false)) ∧
      (file_upload (some fn) exts =
          .created ("File " ++ secure_filename fn ++ " uploaded successfully") ↔
        (fn.toList.contains '.' = true ∧
          exts.contains (lowerStr (rsplitExt fn)) = true))) ∧
    file_upload (some "report.exe") defaultAllowedExtensions =
      .badRequest "Invalid file type" ∧
    file_upload (some "report.pdf") defaultAllowedExtensions =
      .created "File report.pdf uploaded successfully" := by
  refine ⟨?_, by decide, by decide⟩
  intro fn exts
  by_cases hc : fn.toList.contains '.' = true
  · have hne := contains_dot_ne_empty fn hc
    by_cases he : exts.contains (lowerStr (rsplitExt fn)) = true
    · simp at hc he
      simp [file_upload, allowed_file, hne, hc, he]
    · simp only [Bool.not_eq_true] at he
      simp at hc he
      simp [file_upload, allowed_file, hne, hc, he]
  · simp only [Bool.not_eq_true] at hc
    simp at hc
    simp [file_upload, allowed_file, hc]

/-- A user found by id lookup carries that id. -/
theorem userById_id (db : DB) (uid : Nat) (u : User) (h : userById db uid = some u) :
    u.id = uid := by
  unfold userById at h
  simpa using List.find?_some h

/-- A profile found through the relationship lookup carries that user id. -/
theorem profileByUserId_uid (db : DB) (uid : Nat) (pr : Profile)
    (h : profileByUserId db uid = some pr) : pr.user_id = uid := by
  unfold profileByUserId at h
  simpa using List.find?_some h

/-- Lookup commutes with mapping a function that does not change the tested
key. -/
theorem find?_map_pres {α : Type} (l : List α) (p : α → Bool) (f : α → α)
    (hp : ∀ v, p (f v) = p v) : (l.map f).find? p = (l.find? p).map f := by
  have h2 : (p ∘ f) = p := funext hp
  rw [List.find?_map f l, h2]

/-- C1: a create-user request whose username is already stored is answered
with the 400 username-exists error and leaves the whole store untouched: no
user or profile row is added and the original row, password included, is
unmodified. -/
theorem createUser_duplicate_rejected (db : DB) (p : CreatePayload)
    (h : ∃ u ∈ db.users, u.username = p.username) :
    createUser db p = (.errorResp 400 "Username already exists", db) := by
  have hsome : (userByName db p.username).isSome = true := by
    rw [userByName]
    cases hf : db.users.find? (fun u => u.username == p.username) with
    | none =>
        rw [List.find?_eq_none] at hf
        obtain ⟨u, hu, he⟩ := h
        exact absurd (by simp [he]) (hf u hu)
    | some u => rfl
  simp [createUser, hsome]

/-- Witness for C1 at a concrete store holding alice already. -/
theorem createUser_duplicate_rejected_witness :
    createUser demoDB
        { username := "alice", password := "other", full_name := none, bio := none } =
      (.errorResp 400 "Username already exists", demoDB) :=
  createUser_duplicate_rejected demoDB
    { username := "alice", password := "other", full_name := none, bio := none }
    (by decide)

/-- C9: the get-user response exposes only the id, username, admin flag and
profile fields; two stores that differ only in the stored password of a user
produce identical get-user responses for every requested id, so the response
never depends on any stored password. -/
theorem getUser_no_password_leak (db : DB) (i : Nat) (pw : String) (j : Nat) :
    getUser (setPassword db i pw) j = getUser db j := by
  have husers :
      (setPassword db i pw).users.find? (fun u => u.id == j) =
        (db.users.find? (fun u => u.id == j)).map
          (fun u => if u.id == i then { u with password := pw } else u) := by
    apply find?_map_pres
    intro v
    by_cases hv : v.id == i <;> simp [hv]
  unfold getUser userById profileByUserId setPassword
  unfold setPassword at husers
  rw [husers]
  cases hu : db.users.find? (fun u => u.id == j) with
  | none => rfl
  | some u =>
      by_cases hui : u.id = i
      · simp [hui]
      · simp [hui]

/-- C4: the update-user operation leaves the admin flag unchanged in every
case, keeps every field whose key is absent from the payload at its prior
value, and, whenever the commit does not fail, applies exactly the supplied
values to the present fields. -/
theorem updateUser_partial_frame (db : DB) (uid : Nat) (p : UpdatePayload) (u : User)
    (h : userById db uid = some u) :
    ∃ u1, userById (updateUser db uid p).2 uid = some u1 ∧
      u1.is_admin = u.is_admin ∧
      (p.username = none → u1.username = u.username) ∧
      (p.password = none → u1.password = u.password) ∧
      ((updateUser db uid p).1 ≠ .integrityError →
        u1.username = p.username.getD u.username ∧
        u1.password = p.password.getD u.password) := by
  have hid := userById_id db uid u h
  by_cases hg : (p.username.getD u.username != u.username &&
      db.users.any (fun v => v.id != u.id && v.username == p.username.getD u.username))
      = true
  · refine ⟨u, ?_, rfl, fun _ => rfl, fun _ => rfl, ?_⟩
    · have : (updateUser db uid p).2 = db := by
        simp only [updateUser, h, hg, if_true]
      rw [this, h]
    · intro hne
      exact absurd (by simp only [updateUser, h, hg, if_true]) hne
  · have husers : (updateUser db uid p).2.users =
        db.users.map (fun v => if v.id == u.id then
          { u with username := p.username.getD u.username,
                   password := p.password.getD u.password } else v) := by
      simp only [updateUser, h, hg, if_false, Bool.false_eq_true]
      cases hpr : profileByUserId db u.id with
      | none => cases p.full_name <;> rfl
      | some prof => rfl
    refine ⟨{ u with username := p.username.getD u.username, password := p.password.getD u.password }, ?_, rfl, ?_, ?_, ?_⟩
    · rw [userById, husers]
      have := find?_map_pres db.users (fun v => v.id == uid)
        (fun v => if v.id == u.id then
          { u with username := p.username.getD u.username,
                   password := p.password.getD u.password } else v)
        (by intro v; by_cases hv : v.id = u.id <;> simp [hv])
      rw [this]
      unfold userById at h
      rw [h]
      simp
    · intro hnone; rw [hnone]; rfl
    · intro hnone; rw [hnone]; rfl
    · intro _; exact ⟨rfl, rfl⟩

/-- Appending an element with a fresh projection keeps the projected list
duplicate free. -/
theorem nodup_map_append_single {α : Type} (l : List α) (f : α → Nat) (a : α)
    (h : (l.map f).Nodup) (hna : ∀ x ∈ l, f x ≠ f a) :
    ((l ++ [a]).map f).Nodup := by
  rw [List.map_append, List.nodup_append]
  refine ⟨h, List.nodup_singleton _, ?_⟩
  intro x hx hx2
  obtain ⟨y, hy, hfy⟩ := List.mem_map.mp hx
  simp only [List.map_cons, List.map_nil, List.mem_singleton] at hx2
  exact hna y hy (hfy.trans hx2)

/-- Mapping a projection-preserving function leaves the projected list
unchanged. -/
theorem map_proj_eq {α β : Type} (l : List α) (f : α → α) (proj : α → β)
    (h : ∀ x ∈ l, proj (f x) = proj x) : (l.map f).map proj = l.map proj := by
  rw [List.map_map]
  exact List.map_congr_left h

/-- C3: deleting a user that owns a profile answers 200 and removes both
rows: afterwards the id lookup of the user, the relationship lookup of the
profile, the get-user route and the get-profile route all report
not-found. -/
theorem deleteUser_removes_user_and_profile (db : DB) (uid : Nat) (u : User)
    (pr : Profile) (hInv : Inv db) (hu : userById db uid = some u)
    (hpr : profileByUserId db uid = some pr) :
    (deleteUser db uid).1 = .ok ("User " ++ u.username ++ " deleted successfully") ∧
    userById (deleteUser db uid).2 uid = none ∧
    profileByUserId (deleteUser db uid).2 uid = none ∧
    getUser (deleteUser db uid).2 uid = none ∧
    getProfile (deleteUser db uid).2 uid = none := by
  have hid := userById_id db uid u hu
  subst hid
  have hres : deleteUser db u.id =
      (.ok ("User " ++ u.username ++ " deleted successfully"),
        { db with users := db.users.filter (fun v => v.id != u.id),
                  profiles := db.profiles.filter (fun q => q.id != pr.id) }) := by
    simp only [deleteUser, hu, hpr]
  have hfu : (db.users.filter (fun v => v.id != u.id)).find?
      (fun v => v.id == u.id) = none := by
    rw [List.find?_eq_none]
    intro v hv
    have h2 := (List.mem_filter.mp hv).2
    simp only [bne_iff_ne, ne_eq] at h2
    simpa using h2
  have hfp : (db.profiles.filter (fun q => q.id != pr.id)).find?
      (fun q => q.user_id == u.id) = none := by
    rw [List.find?_eq_none]
    intro q hq
    obtain ⟨hqmem, hqid⟩ := List.mem_filter.mp hq
    simp only [bne_iff_ne, ne_eq] at hqid
    simp only [beq_iff_eq]
    intro hquid
    have hpruid : pr.user_id = u.id := profileByUserId_uid db u.id pr hpr
    have hprmem : pr ∈ db.profiles := List.mem_of_find?_eq_some hpr
    have heq : q = pr :=
      List.inj_on_of_nodup_map hInv.2.1 hqmem hprmem (by rw [hquid, hpruid])
    exact hqid (by rw [heq])
  rw [hres]
  have husers : userById (deleteUser db u.id).2 u.id = none := by
    rw [hres]; exact hfu
  rw [hres] at husers
  refine ⟨rfl, husers, hfp, ?_, ?_⟩
  · rw [getUser, husers]
    rfl
  · simp only [getProfile, husers]

/-- Witness for C3 at a one-user one-profile store. -/
theorem deleteUser_removes_user_and_profile_witness :
    (deleteUser profDB 1).1 = .ok ("User " ++ "alice" ++ " deleted successfully") ∧
    userById (deleteUser profDB 1).2 1 = none ∧
    profileByUserId (deleteUser profDB 1).2 1 = none ∧
    getUser (deleteUser profDB 1).2 1 = none ∧
    getProfile (deleteUser profDB 1).2 1 = none :=
  deleteUser_removes_user_and_profile profDB 1
    { id := 1, username := "alice", password := "pw1", is_admin := false }
    { id := 1, full_name := "Alice A", bio := none, user_id := 1 }
    (by decide) (by decide) (by decide)

/-- Witness for C4: a payload supplying only the password leaves username
and admin flag of the stored alice unchanged. -/
theorem updateUser_partial_frame_witness :
    ∃ u1, userById (updateUser demoDB 1
        { username := none, password := some "pw9", full_name := none, bio := none }).2
        1 = some u1 ∧
      u1.is_admin = false ∧
      ((none : Option String) = none → u1.username = "alice") ∧
      ((some "pw9" : Option String) = none → u1.password = "pw1") ∧
      ((updateUser demoDB 1
          { username := none, password := some "pw9", full_name := none, bio := none }).1 ≠
          .integrityError →
        u1.username = (none : Option String).getD "alice" ∧
        u1.password = (some "pw9" : Option String).getD "pw1") :=
  updateUser_partial_frame demoDB 1
    { username := none, password := some "pw9", full_name := none, bio := none }
    { id := 1, username := "alice", password := "pw1", is_admin := false }
    (by decide)

/-- The invariant is stable under rewriting user rows in place without
changing their ids. -/
theorem inv_users_mapped (db : DB) (f : User → User) (hfid : ∀ v, (f v).id = v.id)
    (h : Inv db) : Inv { db with users := db.users.map f } := by
  obtain ⟨href, hnodU, hnodI, hbU, hbP, hUid⟩ := h
  refine ⟨?_, hnodU, hnodI, ?_, hbP, ?_⟩
  · intro q hq
    obtain ⟨w, hw, hwid⟩ := href q hq
    exact ⟨f w, List.mem_map_of_mem f hw, by rw [hfid w, hwid]⟩
  · intro v hv
    obtain ⟨w, hw, rfl⟩ := List.mem_map.mp hv
    rw [hfid w]
    exact hbU w hw
  · show ((db.users.map f).map (fun u => u.id)).Nodup
    rw [map_proj_eq db.users f (fun u => u.id) (fun x _ => hfid x)]
    exact hUid

/-- The invariant is stable under rewriting profile rows in place without
changing their ids or their owners. -/
theorem inv_profiles_mapped (db : DB) (g : Profile → Profile)
    (hg : ∀ q ∈ db.profiles, (g q).id = q.id ∧ (g q).user_id = q.user_id)
    (h : Inv db) : Inv { db with profiles := db.profiles.map g } := by
  obtain ⟨href, hnodU, hnodI, hbU, hbP, hUid⟩ := h
  have hmapU : (db.profiles.map g).map (fun p => p.user_id) =
      db.profiles.map (fun p => p.user_id) :=
    map_proj_eq db.profiles g (fun p => p.user_id) (fun x hx => (hg x hx).2)
  have hmapI : (db.profiles.map g).map (fun p => p.id) =
      db.profiles.map (fun p => p.id) :=
    map_proj_eq db.profiles g (fun p => p.id) (fun x hx => (hg x hx).1)
  refine ⟨?_, ?_, ?_, hbU, ?_, hUid⟩
  · intro q hq
    obtain ⟨x, hx, rfl⟩ := List.mem_map.mp hq
    obtain ⟨w, hw, hwid⟩ := href x hx
    exact ⟨w, hw, by rw [hwid, (hg x hx).2]⟩
  · show ((db.profiles.map g).map (fun p => p.user_id)).Nodup
    rw [hmapU]; exact hnodU
  · show ((db.profiles.map g).map (fun p => p.id)).Nodup
    rw [hmapI]; exact hnodI
  · intro q hq
    obtain ⟨x, hx, rfl⟩ := List.mem_map.mp hq
    show (g x).id < db.nextProfileId
    rw [(hg x hx).1]
    exact hbP x hx

/-- The invariant is stable under inserting a user row carrying the next
generated user id. -/
theorem inv_user_insert (db : DB) (nu : User) (hid : nu.id = db.nextUserId)
    (h : Inv db) :
    Inv { db with users := db.users ++ [nu], nextUserId := db.nextUserId + 1 } := by
  obtain ⟨href, hnodU, hnodI, hbU, hbP, hUid⟩ := h
  refine ⟨?_, hnodU, hnodI, ?_, hbP, ?_⟩
  · intro q hq
    obtain ⟨w, hw, hwid⟩ := href q hq
    exact ⟨w, List.mem_append_left _ hw, hwid⟩
  · intro v hv
    rcases List.mem_append.mp hv with hv | hv
    · exact Nat.lt_succ_of_lt (hbU v hv)
    · rw [List.mem_singleton.mp hv, hid]
      exact Nat.lt_succ_self _
  · refine nodup_map_append_single db.users (fun u => u.id) nu hUid ?_
    intro x hx
    show x.id ≠ nu.id
    rw [hid]
    exact Nat.ne_of_lt (hbU x hx)

/-- The invariant is stable under inserting a profile row carrying the next
generated profile id, owned by a stored user that owns no profile yet. -/
theorem inv_profile_insert (db : DB) (np : Profile) (hid : np.id = db.nextProfileId)
    (hown : ∃ u ∈ db.users, u.id = np.user_id)
    (hfresh : ∀ q ∈ db.profiles, q.user_id ≠ np.user_id)
    (h : Inv db) :
    Inv { db with profiles := db.profiles ++ [np],
                  nextProfileId := db.nextProfileId + 1 } := by
  obtain ⟨href, hnodU, hnodI, hbU, hbP, hUid⟩ := h
  refine ⟨?_, ?_, ?_, hbU, ?_, hUid⟩
  · intro q hq
    rcases List.mem_append.mp hq with hq | hq
    · exact href q hq
    · rw [List.mem_singleton.mp hq]
      exact hown
  · exact nodup_map_append_single db.profiles (fun p => p.user_id) np hnodU hfresh
  · refine nodup_map_append_single db.profiles (fun p => p.id) np hnodI ?_
    intro x hx
    show x.id ≠ np.id
    rw [hid]
    exact Nat.ne_of_lt (hbP x hx)
  · intro q hq
    rcases List.mem_append.mp hq with hq | hq
    · exact Nat.lt_succ_of_lt (hbP q hq)
    · rw [List.mem_singleton.mp hq, hid]
      exact Nat.lt_succ_self _

/-- Every mutating route invocation preserves the state invariant. -/
theorem inv_applyOp (db : DB) (op : Op) (hInv : Inv db) : Inv (applyOp db op) := by
  cases op with
  | create p =>
      show Inv (createUser db p).2
      by_cases hx : (userByName db p.username).isSome = true
      · have he : (createUser db p).2 = db := by simp [createUser, hx]
        rw [he]; exact hInv
      · cases hfn : p.full_name with
        | none =>
            simp only [createUser, hx, hfn, Bool.false_eq_true, if_false]
            exact inv_user_insert db _ rfl hInv
        | some fn =>
            by_cases hemp : (fn != "") = true
            · simp only [createUser, hx, hfn, hemp, Bool.false_eq_true, if_false, if_true]
              refine inv_profile_insert { db with users := db.users ++ [{ id := db.nextUserId, username := p.username, password := p.password, is_admin := false }], nextUserId := db.nextUserId + 1 } { id := db.nextProfileId, full_name := fn, bio := p.bio, user_id := db.nextUserId } rfl
                ⟨_, List.mem_append_right _ (List.mem_singleton.mpr rfl), rfl⟩ ?_
                (inv_user_insert db _ rfl hInv)
              intro q hq
              obtain ⟨w, hw, hwid⟩ := hInv.1 q hq
              rw [← hwid]
              exact Nat.ne_of_lt (hInv.2.2.2.1 w hw)
            · simp only [createUser, hx, hfn, hemp, Bool.false_eq_true, if_false]
              exact inv_user_insert db _ rfl hInv
  | update uid p =>
      show Inv (updateUser db uid p).2
      cases hu : userById db uid with
      | none =>
          have he : (updateUser db uid p).2 = db := by simp [updateUser, hu]
          rw [he]; exact hInv
      | some user =>
          have husermem : user ∈ db.users := List.mem_of_find?_eq_some hu
          by_cases hg : (p.username.getD user.username != user.username &&
              db.users.any (fun v => v.id != user.id &&
                v.username == p.username.getD user.username)) = true
          · have he : (updateUser db uid p).2 = db := by
              simp only [updateUser, hu, hg, if_true]
            rw [he]; exact hInv
          · have hfid : ∀ v : User,
                ((fun v : User => if v.id == user.id then { user with
                  username := p.username.getD user.username,
                  password := p.password.getD user.password } else v) v).id = v.id := by
              intro v
              by_cases hv : v.id = user.id <;> simp [hv]
            cases hpr : profileByUserId db user.id with
            | some prof =>
                have hprofmem : prof ∈ db.profiles := List.mem_of_find?_eq_some hpr
                have hgpres : ∀ q ∈ db.profiles,
                    ((fun q : Profile => if q.id == prof.id then { prof with
                      full_name := p.full_name.getD prof.full_name,
                      bio := match p.bio with | some b => some b | none => prof.bio }
                      else q) q).id = q.id ∧
                    ((fun q : Profile => if q.id == prof.id then { prof with
                      full_name := p.full_name.getD prof.full_name,
                      bio := match p.bio with | some b => some b | none => prof.bio }
                      else q) q).user_id = q.user_id := by
                  intro q hq
                  by_cases hqq : q.id = prof.id
                  · have heq : q = prof :=
                      List.inj_on_of_nodup_map hInv.2.2.1 hq hprofmem hqq
                    subst heq
                    simp
                  · simp [hqq]
                have hmid := inv_users_mapped db (fun v : User => if v.id == user.id then { user with username := p.username.getD user.username, password := p.password.getD user.password } else v) hfid hInv
                simp only [updateUser, hu, hg, hpr, Bool.false_eq_true, if_false]
                exact inv_profiles_mapped { db with users := db.users.map (fun v : User => if v.id == user.id then { user with username := p.username.getD user.username, password := p.password.getD user.password } else v) } (fun q : Profile => if q.id == prof.id then { prof with full_name := p.full_name.getD prof.full_name, bio := match p.bio with | some b => some b | none => prof.bio } else q) hgpres hmid
            | none =>
                cases hfn : p.full_name with
                | some fn =>
                    have hmid := inv_users_mapped db (fun v : User => if v.id == user.id then { user with username := p.username.getD user.username, password := p.password.getD user.password } else v) hfid hInv
                    simp only [updateUser, hu, hg, hpr, hfn, Bool.false_eq_true, if_false]
                    refine inv_profile_insert { db with users := db.users.map (fun v : User => if v.id == user.id then { user with username := p.username.getD user.username, password := p.password.getD user.password } else v) } { id := db.nextProfileId, full_name := fn, bio := p.bio, user_id := user.id } rfl
                      ⟨_, List.mem_map_of_mem _ husermem, hfid user⟩ ?_ hmid
                    intro q hq
                    have hne := List.find?_eq_none.mp hpr q hq
                    simpa using hne
                | none =>
                    simp only [updateUser, hu, hg, hpr, hfn, Bool.false_eq_true, if_false]
                    exact inv_users_mapped db _ hfid hInv
  | delete uid =>
      show Inv (deleteUser db uid).2
      cases hu : userById db uid with
      | none =>
          have he : (deleteUser db uid).2 = db := by simp [deleteUser, hu]
          rw [he]; exact hInv
      | some user =>
          obtain ⟨href, hnodU, hnodI, hbU, hbP, hUid⟩ := hInv
          cases hpr : profileByUserId db user.id with
          | some prof =>
              have hprofmem : prof ∈ db.profiles := List.mem_of_find?_eq_some hpr
              have hpruid : prof.user_id = user.id := by
                simpa using List.find?_some hpr
              simp only [deleteUser, hu, hpr]
              refine ⟨?_, ?_, ?_, ?_, ?_, hUid.sublist ((List.filter_sublist _).map _)⟩
              · intro q hq
                obtain ⟨hqm, hqne⟩ := List.mem_filter.mp hq
                simp only [bne_iff_ne, ne_eq] at hqne
                obtain ⟨w, hw, hwid⟩ := href q hqm
                refine ⟨w, List.mem_filter.mpr ⟨hw, ?_⟩, hwid⟩
                simp only [bne_iff_ne, ne_eq]
                intro hwu
                have hqu : q.user_id = user.id := by rw [← hwid, hwu]
                have heq : q = prof :=
                  List.inj_on_of_nodup_map hnodU hqm hprofmem (by rw [hqu, hpruid])
                exact hqne (by rw [heq])
              · exact hnodU.sublist ((List.filter_sublist _).map _)
              · exact hnodI.sublist ((List.filter_sublist _).map _)
              · intro v hv
                exact hbU v (List.mem_filter.mp hv).1
              · intro q hq
                exact hbP q (List.mem_filter.mp hq).1
          | none =>
              simp only [deleteUser, hu, hpr]
              refine ⟨?_, hnodU, hnodI, ?_, hbP, hUid.sublist ((List.filter_sublist _).map _)⟩
              · intro q hq
                obtain ⟨w, hw, hwid⟩ := href q hq
                refine ⟨w, List.mem_filter.mpr ⟨hw, ?_⟩, hwid⟩
                simp only [bne_iff_ne, ne_eq]
                intro hwu
                have hne := List.find?_eq_none.mp hpr q hq
                simp only [beq_iff_eq] at hne
                exact hne (by rw [← hwid, hwu])
              · intro v hv
                exact hbU v (List.mem_filter.mp hv).1

/-- C5: every mutating route invocation preserves the state invariant, under
which each stored profile references an existing user; consequently, in
every store reachable from the fresh schema by any sequence of route
invocations, no profile row has a user id without a corresponding user row,
and each profile references exactly one stored user. -/
theorem routes_preserve_profile_integrity :
    (∀ (db : DB) (op : Op), Inv db → Inv (applyOp db op)) ∧
    (∀ ops : List Op, refIntact (runOps ops)) ∧
    (∀ ops : List Op, ∀ q ∈ (runOps ops).profiles,
      ∃! u, u ∈ (runOps ops).users ∧ u.id = q.user_id) := by
  have hfold : ∀ (l : List Op) (db : DB), Inv db → Inv (l.foldl applyOp db) := by
    intro l
    induction l with
    | nil => intro db h; exact h
    | cons a t ih =>
        intro db h
        exact ih _ (inv_applyOp db a h)
  refine ⟨inv_applyOp, ?_, ?_⟩
  · intro ops
    exact (hfold ops emptyDB (by decide)).1
  · intro ops q hq
    obtain ⟨href, hnodU, hnodI, hbU, hbP, hUid⟩ := hfold ops emptyDB (by decide)
    obtain ⟨w, hw, hwid⟩ := href q hq
    refine ⟨w, ⟨hw, hwid⟩, ?_⟩
    rintro y ⟨hy, hyid⟩
    exact List.inj_on_of_nodup_map hUid hy hw (by rw [hyid, hwid])

/-- Witness for C5: the invariant holds at a concrete store and is preserved
by a concrete create invocation. -/
theorem routes_preserve_profile_integrity_witness :
    Inv demoDB ∧ Inv (applyOp demoDB (.create createBobPayload)) :=
  ⟨by decide, routes_preserve_profile_integrity.1 demoDB (.create createBobPayload)
    (by decide)⟩

/-- Counterexample to C2 as stated: at a concrete store holding alice and
bob, the PUT renaming bob to alice hits the uniqueness constraint, yet the
caller receives no structured 400-style error response: the commit raises an
IntegrityError that no handler catches. The stored state is unchanged. -/
theorem update_conflict_unhandled_counterexample :
    (updateUser twoUserDB 2 conflictPayload).1 = .integrityError ∧
    isErrorResponse (updateUser twoUserDB 2 conflictPayload).1 = false ∧
    (updateUser twoUserDB 2 conflictPayload).2 = twoUserDB := by
  exact ⟨by decide, by decide, by decide⟩

/-- C2 amended: a uniqueness conflict detected by the create-user pre-check
is reported as a 400 response with an error field and leaves the store
unchanged, while a uniqueness conflict arising at the update-user commit
escapes as an uncaught IntegrityError, also leaving the store unchanged. -/
theorem uniqueness_conflict_reporting :
    (∀ (db : DB) (p : CreatePayload), (∃ u ∈ db.users, u.username = p.username) →
      createUser db p = (.errorResp 400 "Username already exists", db)) ∧
    (∀ (db : DB) (uid : Nat) (p : UpdatePayload) (u : User),
      userById db uid = some u →
      ∀ s, p.username = some s → s ≠ u.username →
      (∃ v ∈ db.users, v.id ≠ u.id ∧ v.username = s) →
      updateUser db uid p = (.integrityError, db)) := by
  constructor
  · intro db p h
    have hsome : (userByName db p.username).isSome = true := by
      rw [userByName]
      cases hf : db.users.find? (fun u => u.username == p.username) with
      | none =>
          rw [List.find?_eq_none] at hf
          obtain ⟨u, hu, he⟩ := h
          exact absurd (by simp [he]) (hf u hu)
      | some u => rfl
    simp [createUser, hsome]
  · rintro db uid p u hu s hps hsne ⟨v, hvmem, hvid, hvun⟩
    have hg : (p.username.getD u.username != u.username &&
        db.users.any (fun w => w.id != u.id &&
          w.username == p.username.getD u.username)) = true := by
      rw [hps]
      simp only [Option.getD_some, Bool.and_eq_true]
      constructor
      · exact bne_iff_ne.mpr hsne
      · rw [List.any_eq_true]
        exact ⟨v, hvmem, by simp [hvid, hvun]⟩
    simp only [updateUser, hu, hg, if_true]

/-- Witness for the amended C2: both conflict kinds at concrete stores. -/
theorem uniqueness_conflict_reporting_witness :
    createUser demoDB
        { username := "alice", password := "z", full_name := none, bio := none } =
      (.errorResp 400 "Username already exists", demoDB) ∧
    updateUser twoUserDB 2 conflictPayload = (.integrityError, twoUserDB) :=
  ⟨uniqueness_conflict_reporting.1 demoDB
      { username := "alice", password := "z", full_name := none, bio := none }
      (by decide),
   uniqueness_conflict_reporting.2 twoUserDB 2 conflictPayload
      { id := 2, username := "bob", password := "pw2", is_admin := false }
      (by decide) "alice" rfl (by decide) (by decide)⟩

/-- Counterexample to C10 as stated: user 1 of the two-user store exists and
has no profile, the PUT body carries the full_name key, and still no profile
row exists afterwards, because the same body renames user 1 to the taken
username bob, so the single commit fails and the whole transaction rolls
back. -/
theorem update_profile_creation_counterexample :
    userById twoUserDB 1 =
      some { id := 1, username := "alice", password := "pw1", is_admin := false } ∧
    profileByUserId twoUserDB 1 = none ∧
    renameWithNamePayload.full_name = some "Xavier" ∧
    (updateUser twoUserDB 1 renameWithNamePayload).2.profiles = [] := by
  exact ⟨by decide, by decide, by decide, by decide⟩

/-- C10 amended: in create-user with a fresh username, a profile row is
inserted exactly when the supplied full name is truthy, that is present and
nonempty; in update-user on a stored user without a profile, provided the
commit does not fail the uniqueness constraint, a profile row is inserted
exactly when the full_name key is present, regardless of its value, the
empty string included. -/
theorem profile_creation_conditions :
    (∀ (db : DB) (p : CreatePayload), (∀ u ∈ db.users, u.username ≠ p.username) →
      ((∃ fn, p.full_name = some fn ∧ fn ≠ "" ∧
          (createUser db p).2.profiles = db.profiles ++
            [{ id := db.nextProfileId, full_name := fn, bio := p.bio,
               user_id := db.nextUserId }]) ∨
        ((p.full_name = none ∨ p.full_name = some "") ∧
          (createUser db p).2.profiles = db.profiles))) ∧
    (∀ (db : DB) (uid : Nat) (p : UpdatePayload) (u : User),
      userById db uid = some u →
      profileByUserId db uid = none →
      (updateUser db uid p).1 ≠ .integrityError →
      ((∃ fn, p.full_name = some fn ∧
          (updateUser db uid p).2.profiles = db.profiles ++
            [{ id := db.nextProfileId, full_name := fn, bio := p.bio,
               user_id := u.id }]) ∨
        (p.full_name = none ∧ (updateUser db uid p).2.profiles = db.profiles))) := by
  constructor
  · intro db p hfresh
    have hub : userByName db p.username = none := by
      rw [userByName, List.find?_eq_none]
      intro u hu
      simp only [beq_iff_eq]
      exact hfresh u hu
    cases hfn : p.full_name with
    | none =>
        right
        refine ⟨Or.inl rfl, ?_⟩
        simp [createUser, hub, hfn]
    | some fn =>
        by_cases hemp : fn = ""
        · right
          subst hemp
          refine ⟨Or.inr rfl, ?_⟩
          simp [createUser, hub, hfn]
        · left
          refine ⟨fn, rfl, hemp, ?_⟩
          have hbne : (fn != "") = true := bne_iff_ne.mpr hemp
          simp [createUser, hub, hfn, hbne]
  · intro db uid p u hu hnopr hnoint
    have hid := userById_id db uid u hu
    subst hid
    by_cases hg : (p.username.getD u.username != u.username &&
        db.users.any (fun v => v.id != u.id &&
          v.username == p.username.getD u.username)) = true
    · exfalso
      apply hnoint
      simp only [updateUser, hu, hg, if_true]
    · cases hfn : p.full_name with
      | some fn =>
          left
          refine ⟨fn, rfl, ?_⟩
          simp only [updateUser, hu, hg, hnopr, hfn, Bool.false_eq_true, if_false]
      | none =>
          right
          refine ⟨rfl, ?_⟩
          simp only [updateUser, hu, hg, hnopr, hfn, Bool.false_eq_true, if_false]

/-- Witness for the amended C10: a create with full name Bob R inserts a
profile, and an update whose only key is an empty full name inserts a
profile for the profileless user 1. -/
theorem profile_creation_conditions_witness :
    ((∃ fn, createBobPayload.full_name = some fn ∧ fn ≠ "" ∧
        (createUser demoDB createBobPayload).2.profiles = demoDB.profiles ++
          [{ id := 2, full_name := fn, bio := createBobPayload.bio, user_id := 2 }]) ∨
      ((createBobPayload.full_name = none ∨ createBobPayload.full_name = some "") ∧
        (createUser demoDB createBobPayload).2.profiles = demoDB.profiles)) ∧
    ((∃ fn, emptyNamePayload.full_name = some fn ∧
        (updateUser twoUserDB 1 emptyNamePayload).2.profiles = twoUserDB.profiles ++
          [{ id := 1, full_name := fn, bio := emptyNamePayload.bio, user_id := 1 }]) ∨
      (emptyNamePayload.full_name = none ∧
        (updateUser twoUserDB 1 emptyNamePayload).2.profiles = twoUserDB.profiles)) :=
  ⟨profile_creation_conditions.1 demoDB createBobPayload (by decide),
   profile_creation_conditions.2 twoUserDB 1 emptyNamePayload
     { id := 1, username := "alice", password := "pw1", is_admin := false }
     (by decide) (by decide) (by decide)⟩

end UserService
